import Mathlib

/-!
Verification of `configure_identity_registration_settings.py` from aws-rfdk.

This file shallowly embeds the algorithmic core of that script:

* the CIDR-to-IPv4-wildcard-pattern converter `cidr_to_ipv4_match`,
* the managed-setting naming convention (`subnet_to_setting_name`,
  `is_rfdk_setting`, and the anchored name-splitting regular expression),
* configuration validation (`validate_config`),
* and the reconciliation passes (`delete_removed_settings`,
  `create_and_update_settings`, `apply_registration_settings`).

Python exceptions are modelled with `Except`; the remote administrative API is
modelled by returning the ordered list of create/update/delete calls the script
would issue instead of executing them.  Machine integers are `Nat` with
explicit `% 256` / `2 ^ 32` bounds.
-/

set_option maxRecDepth 100000

namespace ConfigureIdentityRegistrationSettings

/-! ## Basic numeric model of IPv4 values -/

/-- `BYTE_MASK = 0xFF`: bitmask for all bits in a single byte. -/
def BYTE_MASK : Nat := 0xFF

/-- Numeric value of the dotted-quad IPv4 address `a.b.c.d`. -/
def ipv4ToNat (a b c d : Nat) : Nat := ((a * 256 + b) * 256 + c) * 256 + d

/-- Byte `i` (big-endian, `i < 4`) of a 32-bit value: entry `i` of the
`packed` byte representation used by the Python `ipaddress` module. -/
def byteOf (x i : Nat) : Nat := x / 2 ^ (8 * (3 - i)) % 256

/-- The 4-byte big-endian `packed` representation of a 32-bit value. -/
def packed (x : Nat) : List Nat := [byteOf x 0, byteOf x 1, byteOf x 2, byteOf x 3]

/-- 32-bit netmask of an IPv4 network with prefix length `n`
(`network.netmask` in the Python `ipaddress` module). -/
def netmask32 (n : Nat) : Nat := 2 ^ 32 - 2 ^ (32 - n)

/-- 32-bit hostmask (`network.hostmask`). -/
def hostmask32 (n : Nat) : Nat := 2 ^ (32 - n) - 1

/-- Number of free (host) bits of byte `i` for a network whose host portion is
`s = 32 - n` bits wide: `s - 8*(3-i)` clamped to `[0, 8]`. -/
def jOf (s i : Nat) : Nat := min 8 (s - 8 * (3 - i))

/-! ## Errors and parsed networks -/

/-- The Python exceptions raised by the modelled fragments. -/
inductive PyError where
  | valueError (msg : String)
  | typeError (msg : String)
  | keyError (key : String)
deriving DecidableEq

/-- A CIDR string as handed to `ipaddress.ip_network`, already split into its
numeric components: a dotted-quad IPv4 `a.b.c.d/n`, or an IPv6 `addr/n`. -/
inductive CidrInput where
  | v4 (a b c d n : Nat)
  | v6 (addr n : Nat)
deriving DecidableEq

structure IPv4Network where
  networkAddress : Nat
  prefixLen : Nat
deriving DecidableEq

structure IPv6Network where
  networkAddress : Nat
  prefixLen : Nat
deriving DecidableEq

inductive ParsedNetwork where
  | v4 (net : IPv4Network)
  | v6 (net : IPv6Network)
deriving DecidableEq

/-- Modelled from the Python standard library `ipaddress.ip_network` (not part
of this repository): in its default strict mode it rejects out-of-range
components with `ValueError`, rejects an address with any host bit set with
`ValueError`, and otherwise returns an `IPv4Network` or `IPv6Network`. -/
def ip_network (cidr : CidrInput) : Except PyError ParsedNetwork :=
  match cidr with
  | .v4 a b c d n =>
      if a ≤ 255 ∧ b ≤ 255 ∧ c ≤ 255 ∧ d ≤ 255 ∧ n ≤ 32 then
        if ipv4ToNat a b c d % 2 ^ (32 - n) = 0 then
          .ok (.v4 ⟨ipv4ToNat a b c d, n⟩)
        else .error (.valueError "has host bits set")
      else .error (.valueError "does not appear to be an IPv4 or IPv6 network")
  | .v6 addr n =>
      if addr < 2 ^ 128 ∧ n ≤ 128 then
        if addr % 2 ^ (128 - n) = 0 then .ok (.v6 ⟨addr, n⟩)
        else .error (.valueError "has host bits set")
      else .error (.valueError "does not appear to be an IPv4 or IPv6 network")

/-! ## The converter `cidr_to_ipv4_match` -/

/-- The three octet forms emitted by `cidr_to_ipv4_match`: an exact byte,
the wildcard `*`, or an inclusive `min-max` range. -/
inductive OctetPattern where
  | exact (v : Nat)
  | star
  | range (lo hi : Nat)
deriving DecidableEq

/-- One iteration of the loop body of `cidr_to_ipv4_match`, for one triple of
`zip(netmask, hostmask, nw_address)` bytes. -/
def octetPattern (byte_netmask byte_hostmask byte_nw_address : Nat) : OctetPattern :=
  if byte_netmask = BYTE_MASK then .exact byte_nw_address
  else if byte_netmask = 0 then .star
  else
    let byte_min := byte_netmask &&& byte_nw_address
    .range byte_min (byte_min + byte_hostmask)

/-- Rendering of one octet pattern into the string appended to
`ipv4_match_octets`. -/
def renderOctet : OctetPattern → String
  | .exact v => toString v
  | .star => "*"
  | .range lo hi => toString lo ++ "-" ++ toString hi

/-- The octet patterns produced by the loop of `cidr_to_ipv4_match` on an
IPv4 network, one per byte of `zip(netmask, hostmask, nw_address)`. -/
def ipv4MatchOctets (net : IPv4Network) : List OctetPattern :=
  List.zipWith (fun m ha => octetPattern m ha.1 ha.2)
    (packed (netmask32 net.prefixLen))
    (List.zip (packed (hostmask32 net.prefixLen)) (packed net.networkAddress))

/-- `cidr_to_ipv4_match`: parse the CIDR with `ip_network`, raise `TypeError`
if the result is not an IPv4 network, and emit the `'.'`-joined octet
patterns. -/
def cidr_to_ipv4_match (cidr : CidrInput) : Except PyError String := do
  let network ← ip_network cidr
  match network with
  | .v6 _ => .error (.typeError "is not an IPv4 network")
  | .v4 net => pure (String.intercalate "." ((ipv4MatchOctets net).map renderOctet))

/-! ## Octet-wise interpretation of the emitted pattern -/

/-- Whether a byte satisfies one octet of the pattern, reading the pattern
octet-wise: an exact octet matches only that byte, `*` matches any byte, and
`min-max` matches the inclusive range. -/
def octetMatches : OctetPattern → Nat → Bool
  | .exact v, b => b == v
  | .star, _ => true
  | .range lo hi, b => decide (lo ≤ b) && decide (b ≤ hi)

/-- A 32-bit address matches the whole pattern iff every one of its four bytes
matches the corresponding octet pattern. -/
def addrMatches (pats : List OctetPattern) (x : Nat) : Bool :=
  (pats.zip (packed x)).all fun pb => octetMatches pb.1 pb.2

/-- Membership of the address `x` in the CIDR block with network address `A`
and prefix length `n`: the first `n` bits agree. -/
def inCidrBlock (A n x : Nat) : Prop := x / 2 ^ (32 - n) = A / 2 ^ (32 - n)

/-- The per-octet output shape stated by the specification: the exact
network-address byte when the netmask byte is `0xFF`, the wildcard when it is
`0`, and `min-max` with `min = netmask_byte &&& network_byte`,
`max = min + hostmask_byte` otherwise. -/
def octetShapeSpec (m h a : Nat) (p : OctetPattern) : Prop :=
  (m = 255 → p = .exact a) ∧ (m = 0 → p = .star) ∧
  (m ≠ 255 → m ≠ 0 → p = .range (m &&& a) ((m &&& a) + h))

theorem octetPattern_shape (m h a : Nat) : octetShapeSpec m h a (octetPattern m h a) := by
  refine ⟨fun h255 => ?_, fun h0 => ?_, fun h255 h0 => ?_⟩ <;>
    simp [octetPattern, BYTE_MASK, *]

/-! ## Arithmetic facts about mask bytes -/

theorem byteOf_lt (x i : Nat) : byteOf x i < 256 :=
  Nat.mod_lt _ (by norm_num)

theorem byteOf_netmask32 :
    ∀ n < 33, ∀ i < 4, byteOf (netmask32 n) i = 256 - 2 ^ jOf (32 - n) i := by decide

theorem byteOf_hostmask32 :
    ∀ n < 33, ∀ i < 4, byteOf (hostmask32 n) i = 2 ^ jOf (32 - n) i - 1 := by decide

theorem land_highmask : ∀ j < 9, ∀ b < 256, (256 - 2 ^ j) &&& b = b / 2 ^ j * 2 ^ j := by
  decide

/-- A byte `b` satisfies the octet pattern produced for a netmask byte with
`j` free low bits and a network-address byte `a` whose free bits are clear,
exactly when `b` and `a` agree above the free bits. -/
theorem octetMatches_octetPattern (j a b : Nat) (hj : j ≤ 8) (ha : a < 256) (hb : b < 256)
    (haz : a % 2 ^ j = 0) :
    octetMatches (octetPattern (256 - 2 ^ j) (2 ^ j - 1) a) b = true ↔ b / 2 ^ j = a / 2 ^ j := by
  have hland : (256 - 2 ^ j) &&& a = a / 2 ^ j * 2 ^ j :=
    land_highmask j (by omega) a ha
  have hdiv : a / 2 ^ j * 2 ^ j = a := Nat.div_mul_cancel (Nat.dvd_of_mod_eq_zero haz)
  interval_cases j <;>
    simp only [octetPattern, octetMatches, BYTE_MASK, hland, hdiv] <;>
    norm_num <;> omega

/-- Splitting one block of low bits off a shared-prefix comparison:
for `z, Z < 2 ^ t`, the numbers `y * 2 ^ t + z` and `Y * 2 ^ t + Z` agree above
their low `s` bits iff the high parts agree above `s - t` bits and the low
parts agree above `min t s` bits. -/
theorem div_pow_peel (t s y z Y Z : Nat) (hz : z < 2 ^ t) (hZ : Z < 2 ^ t) :
    ((y * 2 ^ t + z) / 2 ^ s = (Y * 2 ^ t + Z) / 2 ^ s) ↔
      (y / 2 ^ (s - t) = Y / 2 ^ (s - t) ∧ z / 2 ^ min t s = Z / 2 ^ min t s) := by
  rcases Nat.le_total s t with hst | hst
  · -- the split point is inside (or at the end of) the low block
    have hmin : min t s = s := by omega
    have hsub : s - t = 0 := by omega
    have hpow : 2 ^ (t - s) * 2 ^ s = 2 ^ t := by
      rw [← pow_add]; congr 1; omega
    have hexp : ∀ w : Nat, w < 2 ^ t →
        ∀ u : Nat, (u * 2 ^ t + w) / 2 ^ s = w / 2 ^ s + u * 2 ^ (t - s) := by
      intro w hw u
      calc (u * 2 ^ t + w) / 2 ^ s
          = (w + u * 2 ^ (t - s) * 2 ^ s) / 2 ^ s := by
            rw [Nat.add_comm, mul_assoc, hpow]
        _ = w / 2 ^ s + u * 2 ^ (t - s) := by
            rw [Nat.add_mul_div_right _ _ (Nat.pos_pow_of_pos s (by norm_num))]
    have hbound : ∀ w : Nat, w < 2 ^ t → w / 2 ^ s < 2 ^ (t - s) := by
      intro w hw
      rw [Nat.div_lt_iff_lt_mul (Nat.pos_pow_of_pos s (by norm_num)), hpow]
      exact hw
    rw [hexp z hz y, hexp Z hZ Y, hmin, hsub]
    simp only [pow_zero, Nat.div_one]
    constructor
    · intro h
      have hy : y = Y := by
        have h1 := hbound z hz
        have h2 := hbound Z hZ
        have e1 : (z / 2 ^ s + y * 2 ^ (t - s)) / 2 ^ (t - s) = y := by
          rw [Nat.add_mul_div_right _ _ (Nat.pos_pow_of_pos (t - s) (by norm_num)),
            Nat.div_eq_of_lt h1, Nat.zero_add]
        have e2 : (Z / 2 ^ s + Y * 2 ^ (t - s)) / 2 ^ (t - s) = Y := by
          rw [Nat.add_mul_div_right _ _ (Nat.pos_pow_of_pos (t - s) (by norm_num)),
            Nat.div_eq_of_lt h2, Nat.zero_add]
        rw [← e1, ← e2, h]
      refine ⟨hy, ?_⟩
      subst hy
      exact Nat.add_right_cancel h
    · rintro ⟨hy, hzZ⟩
      rw [hy, hzZ]
  · -- the whole low block consists of free bits
    have hmin : min t s = t := by omega
    have hpow : 2 ^ t * 2 ^ (s - t) = 2 ^ s := by
      rw [← pow_add]; congr 1; omega
    have hexp : ∀ w : Nat, w < 2 ^ t →
        ∀ u : Nat, (u * 2 ^ t + w) / 2 ^ s = u / 2 ^ (s - t) := by
      intro w hw u
      rw [← hpow, ← Nat.div_div_eq_div_mul, Nat.mul_comm u,
        Nat.mul_add_div (Nat.pos_pow_of_pos t (by norm_num)), Nat.div_eq_of_lt hw,
        Nat.add_zero]
    rw [hexp z hz y, hexp Z hZ Y, hmin,
      Nat.div_eq_of_lt hz, Nat.div_eq_of_lt hZ]
    simp

theorem byteOf_zero_eq (w : Nat) (hw : w < 2 ^ 32) : byteOf w 0 = w / 2 ^ 24 := by
  simp only [byteOf]
  norm_num at hw ⊢
  omega

theorem byteOf_one_eq (w : Nat) : byteOf w 1 = w % 2 ^ 24 / 2 ^ 16 := by
  have h := Nat.mod_mul_right_div_self w (2 ^ 16) (2 ^ 8)
  simp only [byteOf]
  norm_num at h ⊢
  exact h.symm

theorem byteOf_two_eq (w : Nat) : byteOf w 2 = w % 2 ^ 16 / 2 ^ 8 := by
  have h := Nat.mod_mul_right_div_self w (2 ^ 8) (2 ^ 8)
  simp only [byteOf]
  norm_num at h ⊢
  exact h.symm

theorem byteOf_three_eq (w : Nat) : byteOf w 3 = w % 2 ^ 8 := by
  simp only [byteOf]
  norm_num

theorem split_at_24 (w : Nat) (hw : w < 2 ^ 32) :
    w = byteOf w 0 * 2 ^ 24 + w % 2 ^ 24 := by
  rw [byteOf_zero_eq w hw]
  have := Nat.div_add_mod w (2 ^ 24)
  omega

theorem split_at_16 (w : Nat) : w % 2 ^ 24 = byteOf w 1 * 2 ^ 16 + w % 2 ^ 16 := by
  rw [byteOf_one_eq w]
  have h1 := Nat.div_add_mod (w % 2 ^ 24) (2 ^ 16)
  have h2 : w % 2 ^ 24 % 2 ^ 16 = w % 2 ^ 16 :=
    Nat.mod_mod_of_dvd w (by norm_num)
  omega

theorem split_at_8 (w : Nat) : w % 2 ^ 16 = byteOf w 2 * 2 ^ 8 + w % 2 ^ 8 := by
  rw [byteOf_two_eq w]
  have h1 := Nat.div_add_mod (w % 2 ^ 16) (2 ^ 8)
  have h2 : w % 2 ^ 16 % 2 ^ 8 = w % 2 ^ 8 :=
    Nat.mod_mod_of_dvd w (by norm_num)
  omega

/-- Two 32-bit values agree above their low `s` bits iff each pair of
corresponding bytes agrees above the byte's free bits. -/
theorem div_eq_div_iff_bytes (s x A : Nat) (hs : s ≤ 32) (hx : x < 2 ^ 32) (hA : A < 2 ^ 32) :
    x / 2 ^ s = A / 2 ^ s ↔
      (byteOf x 0 / 2 ^ jOf s 0 = byteOf A 0 / 2 ^ jOf s 0 ∧
       byteOf x 1 / 2 ^ jOf s 1 = byteOf A 1 / 2 ^ jOf s 1 ∧
       byteOf x 2 / 2 ^ jOf s 2 = byteOf A 2 / 2 ^ jOf s 2 ∧
       byteOf x 3 / 2 ^ jOf s 3 = byteOf A 3 / 2 ^ jOf s 3) := by
  have e0 : jOf s 0 = s - 24 := by simp only [jOf]; omega
  have e1 : min 24 s - 16 = jOf s 1 := by simp only [jOf]; omega
  have e2 : min 16 s - 8 = jOf s 2 := by simp only [jOf]; omega
  have e3 : min 8 (min 16 s) = jOf s 3 := by simp only [jOf]; omega
  have e12 : min 16 (min 24 s) = min 16 s := by omega
  have step1 := div_pow_peel 24 s (byteOf x 0) (x % 2 ^ 24) (byteOf A 0) (A % 2 ^ 24)
    (Nat.mod_lt _ (by norm_num)) (Nat.mod_lt _ (by norm_num))
  rw [← split_at_24 x hx, ← split_at_24 A hA] at step1
  have step2 := div_pow_peel 16 (min 24 s) (byteOf x 1) (x % 2 ^ 16) (byteOf A 1) (A % 2 ^ 16)
    (Nat.mod_lt _ (by norm_num)) (Nat.mod_lt _ (by norm_num))
  rw [← split_at_16 x, ← split_at_16 A] at step2
  have step3 := div_pow_peel 8 (min 16 s) (byteOf x 2) (x % 2 ^ 8) (byteOf A 2) (A % 2 ^ 8)
    (Nat.mod_lt _ (by norm_num)) (Nat.mod_lt _ (by norm_num))
  rw [← split_at_8 x, ← split_at_8 A] at step3
  rw [step1, step2, e12, step3, ← byteOf_three_eq x, ← byteOf_three_eq A,
    e0, e1, e2, e3]

/-- If the whole address has its low `s` bits clear then each byte has its
free bits clear. -/
theorem byteOf_mod_zero (s w i : Nat) (hmod : w % 2 ^ s = 0) :
    byteOf w i % 2 ^ jOf s i = 0 := by
  by_cases hse : s ≤ 8 * (3 - i)
  · have hj : jOf s i = 0 := by simp only [jOf]; omega
    simp [hj, Nat.mod_one]
  · have hj8 : jOf s i ≤ 8 := min_le_left 8 _
    have h1 : byteOf w i % 2 ^ jOf s i = w / 2 ^ (8 * (3 - i)) % 2 ^ jOf s i := by
      have hdvd : (2 : Nat) ^ jOf s i ∣ 256 := by
        calc (2 : Nat) ^ jOf s i ∣ 2 ^ 8 := pow_dvd_pow 2 hj8
          _ = 256 := by norm_num
      simp only [byteOf]
      exact Nat.mod_mod_of_dvd _ hdvd
  -- w is a multiple of 2 ^ s, so w / 2 ^ e is a multiple of 2 ^ (s - e)
    obtain ⟨k, hk⟩ := Nat.dvd_of_mod_eq_zero hmod
    have hes : 8 * (3 - i) ≤ s := by omega
    have hpow : (2 : Nat) ^ s = 2 ^ (8 * (3 - i)) * 2 ^ (s - 8 * (3 - i)) := by
      rw [← pow_add]; congr 1; omega
    have h2 : w / 2 ^ (8 * (3 - i)) = 2 ^ (s - 8 * (3 - i)) * k := by
      rw [hk, hpow, mul_assoc,
        Nat.mul_div_cancel_left _ (Nat.pos_pow_of_pos (8 * (3 - i)) (by norm_num))]
    have hjle : jOf s i ≤ s - 8 * (3 - i) := min_le_right 8 _
    obtain ⟨q, hq⟩ : (2 : Nat) ^ jOf s i ∣ 2 ^ (s - 8 * (3 - i)) := pow_dvd_pow 2 hjle
    rw [h1, h2, hq, mul_assoc, Nat.mul_mod_right]

/-- Exactness of the octet-wise interpretation: an address matches the octet
patterns of the network `A/n` iff it lies in the CIDR block. -/
theorem addrMatches_iff (A n x : Nat) (hn : n ≤ 32) (hA : A < 2 ^ 32) (hx : x < 2 ^ 32)
    (hhost : A % 2 ^ (32 - n) = 0) :
    (addrMatches (ipv4MatchOctets ⟨A, n⟩) x = true) ↔ inCidrBlock A n x := by
  have hs : 32 - n ≤ 32 := by omega
  have hn33 : n < 33 := by omega
  simp only [addrMatches, ipv4MatchOctets, packed, List.zip_cons_cons, List.zip_nil_right,
    List.zipWith_cons_cons, List.zipWith_nil_right, List.all_cons, List.all_nil,
    Bool.and_true, Bool.and_eq_true]
  rw [byteOf_netmask32 n hn33 0 (by norm_num), byteOf_netmask32 n hn33 1 (by norm_num),
    byteOf_netmask32 n hn33 2 (by norm_num), byteOf_netmask32 n hn33 3 (by norm_num),
    byteOf_hostmask32 n hn33 0 (by norm_num), byteOf_hostmask32 n hn33 1 (by norm_num),
    byteOf_hostmask32 n hn33 2 (by norm_num), byteOf_hostmask32 n hn33 3 (by norm_num),
    octetMatches_octetPattern (jOf (32 - n) 0) (byteOf A 0) (byteOf x 0) (min_le_left 8 _)
      (byteOf_lt A 0) (byteOf_lt x 0) (byteOf_mod_zero _ A 0 hhost),
    octetMatches_octetPattern (jOf (32 - n) 1) (byteOf A 1) (byteOf x 1) (min_le_left 8 _)
      (byteOf_lt A 1) (byteOf_lt x 1) (byteOf_mod_zero _ A 1 hhost),
    octetMatches_octetPattern (jOf (32 - n) 2) (byteOf A 2) (byteOf x 2) (min_le_left 8 _)
      (byteOf_lt A 2) (byteOf_lt x 2) (byteOf_mod_zero _ A 2 hhost),
    octetMatches_octetPattern (jOf (32 - n) 3) (byteOf A 3) (byteOf x 3) (min_le_left 8 _)
      (byteOf_lt A 3) (byteOf_lt x 3) (byteOf_mod_zero _ A 3 hhost)]
  rw [inCidrBlock, div_eq_div_iff_bytes (32 - n) x A hs hx hA]

theorem ipv4ToNat_lt (a b c d : Nat) (ha : a ≤ 255) (hb : b ≤ 255) (hc : c ≤ 255)
    (hd : d ≤ 255) : ipv4ToNat a b c d < 2 ^ 32 := by
  simp only [ipv4ToNat]
  norm_num
  omega

/-- C1: for every IPv4 CIDR `a.b.c.d/n` denoting a valid network (no host bits
set), `cidr_to_ipv4_match` returns the dot-joined 4-octet pattern in which
octet `i` is the exact decimal network-address byte when netmask byte `i` is
`0xFF`, the wildcard `*` when it is `0`, and `min-max` with
`min = netmask_byte &&& network_byte`, `max = min + hostmask_byte` otherwise;
interpreted octet-wise this pattern matches exactly the CIDR block, and in
particular `0.0.0.0/18 -> "0.0.0-63.*"`, `0.0.0.0/8 -> "0.*.*.*"`,
`0.0.0.0/1 -> "0-127.*.*.*"`. -/
theorem cidr_to_ipv4_match_exact (a b c d n : Nat) (ha : a ≤ 255) (hb : b ≤ 255)
    (hc : c ≤ 255) (hd : d ≤ 255) (hn : n ≤ 32)
    (hhost : ipv4ToNat a b c d % 2 ^ (32 - n) = 0) :
    cidr_to_ipv4_match (.v4 a b c d n) =
        .ok (String.intercalate "."
          ((ipv4MatchOctets ⟨ipv4ToNat a b c d, n⟩).map renderOctet)) ∧
      (∀ i < 4, octetShapeSpec (byteOf (netmask32 n) i) (byteOf (hostmask32 n) i)
        (byteOf (ipv4ToNat a b c d) i)
        ((ipv4MatchOctets ⟨ipv4ToNat a b c d, n⟩).getD i .star)) ∧
      (∀ x < 2 ^ 32, (addrMatches (ipv4MatchOctets ⟨ipv4ToNat a b c d, n⟩) x = true ↔
        inCidrBlock (ipv4ToNat a b c d) n x)) ∧
      cidr_to_ipv4_match (.v4 0 0 0 0 18) = .ok "0.0.0-63.*" ∧
      cidr_to_ipv4_match (.v4 0 0 0 0 8) = .ok "0.*.*.*" ∧
      cidr_to_ipv4_match (.v4 0 0 0 0 1) = .ok "0-127.*.*.*" := by
  refine ⟨?_, ?_, ?_, by rfl, by rfl, by rfl⟩
  · have hparse : ip_network (.v4 a b c d n) = .ok (.v4 ⟨ipv4ToNat a b c d, n⟩) := by
      simp only [ip_network]
      rw [if_pos ⟨ha, hb, hc, hd, hn⟩, if_pos hhost]
    simp only [cidr_to_ipv4_match, hparse]
    rfl
  · intro i hi
    interval_cases i <;> exact octetPattern_shape _ _ _
  · intro x hx
    exact addrMatches_iff (ipv4ToNat a b c d) n x hn (ipv4ToNat_lt a b c d ha hb hc hd) hx hhost

theorem cidr_to_ipv4_match_exact_witness :
    ((192 : Nat) ≤ 255 ∧ (168 : Nat) ≤ 255 ∧ (0 : Nat) ≤ 255 ∧ (16 : Nat) ≤ 32 ∧
      ipv4ToNat 192 168 0 0 % 2 ^ (32 - 16) = 0) ∧
    (cidr_to_ipv4_match (.v4 192 168 0 0 16) =
        .ok (String.intercalate "."
          ((ipv4MatchOctets ⟨ipv4ToNat 192 168 0 0, 16⟩).map renderOctet)) ∧
      (∀ i < 4, octetShapeSpec (byteOf (netmask32 16) i) (byteOf (hostmask32 16) i)
        (byteOf (ipv4ToNat 192 168 0 0) i)
        ((ipv4MatchOctets ⟨ipv4ToNat 192 168 0 0, 16⟩).getD i .star)) ∧
      (∀ x < 2 ^ 32, (addrMatches (ipv4MatchOctets ⟨ipv4ToNat 192 168 0 0, 16⟩) x = true ↔
        inCidrBlock (ipv4ToNat 192 168 0 0) 16 x)) ∧
      cidr_to_ipv4_match (.v4 0 0 0 0 18) = .ok "0.0.0-63.*" ∧
      cidr_to_ipv4_match (.v4 0 0 0 0 8) = .ok "0.*.*.*" ∧
      cidr_to_ipv4_match (.v4 0 0 0 0 1) = .ok "0-127.*.*.*") :=
  ⟨⟨by decide, by decide, by decide, by decide, by decide⟩,
    cidr_to_ipv4_match_exact 192 168 0 0 16 (by decide) (by decide) (by decide) (by decide)
      (by decide) (by decide)⟩

/-- C10: for every IPv4 CIDR whose address has a bit set in the host portion,
`cidr_to_ipv4_match` raises `ValueError` from strict network parsing and
produces no pattern. -/
theorem cidr_to_ipv4_match_host_bits_set (a b c d n : Nat) (ha : a ≤ 255) (hb : b ≤ 255)
    (hc : c ≤ 255) (hd : d ≤ 255) (hn : n ≤ 32)
    (hhost : ipv4ToNat a b c d % 2 ^ (32 - n) ≠ 0) :
    cidr_to_ipv4_match (.v4 a b c d n) = .error (.valueError "has host bits set") := by
  simp only [cidr_to_ipv4_match, ip_network]
  rw [if_pos ⟨ha, hb, hc, hd, hn⟩, if_neg hhost]
  rfl

theorem cidr_to_ipv4_match_host_bits_set_witness :
    ipv4ToNat 10 0 0 1 % 2 ^ (32 - 16) ≠ 0 ∧
    cidr_to_ipv4_match (.v4 10 0 0 1 16) = .error (.valueError "has host bits set") :=
  ⟨by decide,
    cidr_to_ipv4_match_host_bits_set 10 0 0 1 16 (by decide) (by decide) (by decide)
      (by decide) (by decide) (by decide)⟩

/-- C9: for every input denoting a (valid) IPv6 network, `cidr_to_ipv4_match`
raises a `TypeError` and produces no pattern output. -/
theorem cidr_to_ipv4_match_ipv6_type_error (addr n : Nat) (haddr : addr < 2 ^ 128)
    (hn : n ≤ 128) (hhost : addr % 2 ^ (128 - n) = 0) :
    cidr_to_ipv4_match (.v6 addr n) = .error (.typeError "is not an IPv4 network") := by
  simp only [cidr_to_ipv4_match, ip_network]
  rw [if_pos ⟨haddr, hn⟩, if_pos hhost]
  rfl

theorem cidr_to_ipv4_match_ipv6_type_error_witness :
    (0 : Nat) < 2 ^ 128 ∧
    cidr_to_ipv4_match (.v6 0 64) = .error (.typeError "is not an IPv4 network") :=
  ⟨by decide, cidr_to_ipv4_match_ipv6_type_error 0 64 (by decide) (by decide) (by decide)⟩

/-! ## Data structures of the reconciler -/

/-- `LoadBalancerIdentityRegistrationSetting`: one identity registration
setting record, with the fields of the Python `NamedTuple`. -/
structure LoadBalancerIdentityRegistrationSetting where
  connection_ip_filter_type : String
  connection_ip_filter_value : String
  source_ip_filter_type : String
  source_ip_filter_value : String
  settings_id : String
  settings_name : String
  is_enabled : Bool
  default_status : String
  default_role : String
deriving DecidableEq

/-- `SourceSubnet`: a subnet Deadline clients connect from, with its role and
registration status. -/
structure SourceSubnet where
  subnet_id : String
  role : String
  registration_status : String
deriving DecidableEq

/-- The remote administrative calls the script can issue.  The script is
modelled as returning the ordered list of calls instead of running them. -/
inductive ApiCall where
  | create (setting : LoadBalancerIdentityRegistrationSetting)
  | update (setting : LoadBalancerIdentityRegistrationSetting)
  | delete (settingsId : String)
deriving DecidableEq

/-! ## The managed-setting naming convention -/

/-- `subnet_to_setting_name`: joins the reserved name head `"RfdkSubnet"`, the
connection subnet ID and the source subnet ID with the reserved separator
`'|'`. -/
def subnet_to_setting_name (connection_subnet_id source_subnet_id : String) : String :=
  "RfdkSubnet" ++ "|" ++ connection_subnet_id ++ "|" ++ source_subnet_id

/-- Split a character list at every occurrence of `sep` (the semantics of
splitting a string on a one-character separator). -/
def splitOnChar (sep : Char) : List Char → List (List Char)
  | [] => [[]]
  | ch :: rest =>
    match splitOnChar sep rest with
    | grp :: grps => if ch = sep then [] :: grp :: grps else (ch :: grp) :: grps
    | [] => if ch = sep then [[], []] else [[ch]]

/-- Matching of the anchored regular expression
`^RfdkSubnet\|([^|]+?)\|([^|]+?)$` (`RFDK_IDENTITY_REGISTRATION_SETTING_NAME_RE`),
returning its two capture groups: the name matches iff it consists of exactly
the three `'|'`-separated segments `RfdkSubnet`, a non-empty connection subnet
ID and a non-empty source subnet ID, none containing `'|'`.  Without
`re.MULTILINE`, Python's `$` matches at the end of the string or just before a
newline that is the string's last character; the `SourceSubnetID` group is
lazy, so when the last segment ends with such a trailing newline and has other
content, the capture stops before the newline and drops it. -/
def parseSettingName (name : String) : Option (String × String) :=
  match splitOnChar '|' name.data with
  | [seg0, cid, sid] =>
      if seg0 = "RfdkSubnet".data ∧ cid ≠ [] ∧ sid ≠ [] then
        if sid.getLast? = some '\n' ∧ sid.dropLast ≠ [] then
          some (String.mk cid, String.mk sid.dropLast)
        else some (String.mk cid, String.mk sid)
      else none
  | _ => none

/-- `is_rfdk_setting`: whether the setting's name matches the RFDK naming
pattern. -/
def is_rfdk_setting (setting : LoadBalancerIdentityRegistrationSetting) : Bool :=
  (parseSettingName setting.settings_name).isSome

/-- `get_rfdk_registration_settings`: classify the settings fetched from the
remote API, keeping only the RFDK-managed (pattern-matching) subset. -/
def get_rfdk_registration_settings
    (all_registration_settings : List LoadBalancerIdentityRegistrationSetting) :
    List LoadBalancerIdentityRegistrationSetting :=
  all_registration_settings.filter is_rfdk_setting

/-! ## Configuration validation -/

/-- The loop of `validate_config` over the source subnets, carrying the set of
already observed subnet IDs: raises `ValueError` at the first repeated ID. -/
def validate_source_subnets (source_subnets : List SourceSubnet) (observed : List String) :
    Except PyError Unit :=
  match source_subnets with
  | [] => .ok ()
  | source_subnet :: rest =>
      if source_subnet.subnet_id ∈ observed then
        .error (.valueError ("Subnet \"" ++ source_subnet.subnet_id ++ "\" is not unique"))
      else validate_source_subnets rest (source_subnet.subnet_id :: observed)

/-- `validate_config`: all source subnet IDs must be pairwise distinct, and at
least one connection subnet must be given. -/
def validate_config (source_subnet : List SourceSubnet) (connection_subnet : List String) :
    Except PyError Unit := do
  validate_source_subnets source_subnet []
  if connection_subnet.isEmpty then .error (.valueError "no --connection-subnet specified")
  else .ok ()

/-! ## Preparing desired settings -/

/-- Lookup in the `subnet_to_cidr` dictionary; a missing key raises `KeyError`.
The dictionary values are CIDR blocks, carried here in the already-split form
consumed by `ip_network`. -/
def dictGet (subnet_to_cidr : List (String × CidrInput)) (key : String) :
    Except PyError CidrInput :=
  match subnet_to_cidr.lookup key with
  | some v => .ok v
  | none => .error (.keyError key)

/-- `prepare_desired_setting`: build the desired setting for one
(connection subnet, source subnet) pair from the CIDR-derived IP filter
values, with a blank `settings_id`. -/
def prepare_desired_setting (connection_subnet_id : String) (source_subnet : SourceSubnet)
    (subnet_to_cidr : List (String × CidrInput)) :
    Except PyError LoadBalancerIdentityRegistrationSetting := do
  let connection_subnet_cidr ← dictGet subnet_to_cidr connection_subnet_id
  let source_subnet_cidr ← dictGet subnet_to_cidr source_subnet.subnet_id
  let connection_subnet_ipv4_match ← cidr_to_ipv4_match connection_subnet_cidr
  let source_subnet_ipv4_match ← cidr_to_ipv4_match source_subnet_cidr
  pure {
    settings_id := ""
    settings_name := subnet_to_setting_name connection_subnet_id source_subnet.subnet_id
    connection_ip_filter_type := "IPv4Match"
    connection_ip_filter_value := connection_subnet_ipv4_match
    source_ip_filter_type := "IPv4Match"
    source_ip_filter_value := source_subnet_ipv4_match
    default_role := source_subnet.role
    default_status := source_subnet.registration_status
    is_enabled := true
  }

/-! ## The deletion pass -/

/-- `delete_removed_settings`: walk the prior RFDK-managed settings in order,
decompose each name, and delete (keyed by the opaque `settings_id`) every
setting whose pair is no longer desired; a name that fails to decompose raises
`ValueError`. -/
def delete_removed_settings (prior_rfdk_settings : List LoadBalancerIdentityRegistrationSetting)
    (connection_subnet_ids : List String) (source_subnets : List SourceSubnet) :
    Except PyError (List ApiCall) :=
  match prior_rfdk_settings with
  | [] => .ok []
  | prior_rfdk_setting :: rest =>
      match parseSettingName prior_rfdk_setting.settings_name with
      | none => .error (.valueError
          ("Recevied non-RFDK load balancer identity registration setting " ++
            prior_rfdk_setting.settings_name))
      | some (connection_subnet_id, source_subnet_id) => do
          let tail ← delete_removed_settings rest connection_subnet_ids source_subnets
          if source_subnet_id ∉ source_subnets.map SourceSubnet.subnet_id ∨
              connection_subnet_id ∉ connection_subnet_ids then
            pure (ApiCall.delete prior_rfdk_setting.settings_id :: tail)
          else
            pure tail

/-! ## The create/update pass -/

/-- The dictionary `prior_settings_by_name` built by comprehension over the
prior settings (later entries overwrite earlier ones), accessed via `.get`. -/
def prior_settings_by_name (prior_rfdk_settings : List LoadBalancerIdentityRegistrationSetting)
    (name : String) : Option LoadBalancerIdentityRegistrationSetting :=
  (prior_rfdk_settings.filter (fun st => st.settings_name == name)).getLast?

/-- `setting_differs`: Python `!=` on the two named tuples, i.e. full
field-by-field inequality including `settings_id`. -/
def setting_differs (setting_a setting_b : LoadBalancerIdentityRegistrationSetting) : Bool :=
  decide (setting_a ≠ setting_b)

/-- The Cartesian iteration order of the create/update pass: connection subnet
IDs in the outer loop, source subnets in the inner loop. -/
def subnetPairs (connection_subnet_ids : List String) (source_subnets : List SourceSubnet) :
    List (String × SourceSubnet) :=
  connection_subnet_ids.flatMap fun c => source_subnets.map fun s => (c, s)

/-- The body of the create/update loop for one (connection, source) pair:
create when no prior setting bears the derived name, otherwise copy the prior
`settings_id` into the desired setting and update iff anything differs. -/
def processPair (prior_rfdk_settings : List LoadBalancerIdentityRegistrationSetting)
    (subnet_to_cidr : List (String × CidrInput)) (pair : String × SourceSubnet) :
    Except PyError (Option ApiCall) := do
  let setting_name := subnet_to_setting_name pair.1 pair.2.subnet_id
  let desired_rfdk_setting ← prepare_desired_setting pair.1 pair.2 subnet_to_cidr
  match prior_settings_by_name prior_rfdk_settings setting_name with
  | some prior_rfdk_setting =>
      let desired' := { desired_rfdk_setting with settings_id := prior_rfdk_setting.settings_id }
      if setting_differs prior_rfdk_setting desired' then pure (some (.update desired'))
      else pure none
  | none => pure (some (.create desired_rfdk_setting))

def create_and_update_loop (prior_rfdk_settings : List LoadBalancerIdentityRegistrationSetting)
    (subnet_to_cidr : List (String × CidrInput)) :
    List (String × SourceSubnet) → Except PyError (List ApiCall)
  | [] => .ok []
  | pair :: rest => do
      let act ← processPair prior_rfdk_settings subnet_to_cidr pair
      let tail ← create_and_update_loop prior_rfdk_settings subnet_to_cidr rest
      match act with
      | some call => pure (call :: tail)
      | none => pure tail

/-- `create_and_update_settings`: the nested loop over
`connection_subnet_ids × source_subnets`. -/
def create_and_update_settings (prior_rfdk_settings : List LoadBalancerIdentityRegistrationSetting)
    (connection_subnet_ids : List String) (source_subnets : List SourceSubnet)
    (subnet_to_cidr : List (String × CidrInput)) : Except PyError (List ApiCall) :=
  create_and_update_loop prior_rfdk_settings subnet_to_cidr
    (subnetPairs connection_subnet_ids source_subnets)

/-! ## The whole reconciliation run -/

/-- `apply_registration_settings`: fetch and classify the remote settings,
run the deletion pass, then the create/update pass, both on the same
prior-settings snapshot.  The remote store contents and the subnet-to-CIDR
mapping are parameters in place of the two remote read APIs. -/
def apply_registration_settings (all_settings : List LoadBalancerIdentityRegistrationSetting)
    (connection_subnets : List String) (source_subnets : List SourceSubnet)
    (subnet_to_cidr : List (String × CidrInput)) : Except PyError (List ApiCall) := do
  let prior_rfdk_settings := get_rfdk_registration_settings all_settings
  let deletes ← delete_removed_settings prior_rfdk_settings connection_subnets source_subnets
  let creates ← create_and_update_settings prior_rfdk_settings connection_subnets
    source_subnets subnet_to_cidr
  pure (deletes ++ creates)

/-- `__main__`: validate the configuration, then apply the registration
settings; a validation failure aborts before any remote interaction. -/
def main_model (source_subnet : List SourceSubnet) (connection_subnet : List String)
    (all_settings : List LoadBalancerIdentityRegistrationSetting)
    (subnet_to_cidr : List (String × CidrInput)) : Except PyError (List ApiCall) := do
  validate_config source_subnet connection_subnet
  apply_registration_settings all_settings connection_subnet source_subnet subnet_to_cidr

/-! ## Properties of the naming convention -/

theorem splitOnChar_ne_nil (sep : Char) (l : List Char) : splitOnChar sep l ≠ [] := by
  cases l with
  | nil => simp [splitOnChar]
  | cons ch rest =>
      simp only [splitOnChar]
      split <;> split <;> simp

theorem splitOnChar_no_sep (sep : Char) (l : List Char) (h : sep ∉ l) :
    splitOnChar sep l = [l] := by
  induction l with
  | nil => rfl
  | cons ch rest ih =>
      have hch : ch ≠ sep := fun hc => h (hc ▸ List.mem_cons_self ch rest)
      have hrest : sep ∉ rest := fun hr => h (List.mem_cons_of_mem ch hr)
      simp only [splitOnChar, ih hrest]
      simp [hch]

theorem splitOnChar_append (sep : Char) (xs ys : List Char) (h : sep ∉ xs) :
    splitOnChar sep (xs ++ sep :: ys) = xs :: splitOnChar sep ys := by
  induction xs with
  | nil =>
      simp only [List.nil_append, splitOnChar]
      cases hys : splitOnChar sep ys with
      | nil => exact absurd hys (splitOnChar_ne_nil sep ys)
      | cons grp grps => simp
  | cons x xs ih =>
      have hx : x ≠ sep := fun hc => h (hc ▸ List.mem_cons_self x xs)
      have hxs : sep ∉ xs := fun hr => h (List.mem_cons_of_mem x hr)
      simp only [List.cons_append, splitOnChar, List.append_eq]
      rw [ih hxs]
      simp [hx]

theorem data_subnet_to_setting_name (c s : String) :
    (subnet_to_setting_name c s).data =
      "RfdkSubnet".data ++ '|' :: (c.data ++ '|' :: s.data) := by
  have hbar : ("|" : String).data = ['|'] := rfl
  simp [subnet_to_setting_name, String.data_append, hbar]

theorem parseSettingName_roundtrip (c s : String) (hc : c.data ≠ []) (hcp : '|' ∉ c.data)
    (hs : s.data ≠ []) (hsp : '|' ∉ s.data)
    (hnl : s.data.getLast? = some '\n' → s.data.dropLast = []) :
    parseSettingName (subnet_to_setting_name c s) = some (c, s) := by
  have hx : '|' ∉ "RfdkSubnet".data := by decide
  have hsplit : splitOnChar '|' (subnet_to_setting_name c s).data =
      ["RfdkSubnet".data, c.data, s.data] := by
    rw [data_subnet_to_setting_name, splitOnChar_append '|' _ _ hx,
      splitOnChar_append '|' _ _ hcp, splitOnChar_no_sep '|' _ hsp]
  have hcond : ¬(s.data.getLast? = some '\n' ∧ s.data.dropLast ≠ []) := by
    rintro ⟨h1, h2⟩
    exact h2 (hnl h1)
  simp only [parseSettingName, hsplit]
  simp [hc, hs, hcond]

/-- C6 counterexample: the source subnet ID `"subnet-s\n"` is non-empty and
contains no `'|'`, yet decomposing the derived name via the pattern yields
`("subnet-c", "subnet-s")` — the regex's `$` lets the lazy capture drop the
trailing newline — so the round-trip claimed for all non-empty `'|'`-free IDs
fails. -/
theorem subnet_to_setting_name_roundtrip_counterexample :
    ("subnet-s\n" : String).data ≠ [] ∧ '|' ∉ ("subnet-s\n" : String).data ∧
    parseSettingName (subnet_to_setting_name "subnet-c" "subnet-s\n") =
      some ("subnet-c", "subnet-s") ∧
    parseSettingName (subnet_to_setting_name "subnet-c" "subnet-s\n") ≠
      some ("subnet-c", "subnet-s\n") := by decide

/-- C6 (amended): for non-empty, `'|'`-free connection and source subnet IDs,
where additionally the source subnet ID does not end with a newline character
(unless it is the single newline, which the lazy capture cannot shorten), the
name produced by `subnet_to_setting_name` matches the managed-name pattern
(`is_rfdk_setting` holds for any setting bearing it) and decomposes back to
exactly the original pair. -/
theorem subnet_to_setting_name_roundtrip (c s : String) (hc : c.data ≠ [])
    (hcp : '|' ∉ c.data) (hs : s.data ≠ []) (hsp : '|' ∉ s.data)
    (hnl : s.data.getLast? = some '\n' → s.data.dropLast = []) :
    parseSettingName (subnet_to_setting_name c s) = some (c, s) ∧
    ∀ st : LoadBalancerIdentityRegistrationSetting,
      st.settings_name = subnet_to_setting_name c s → is_rfdk_setting st = true := by
  have h := parseSettingName_roundtrip c s hc hcp hs hsp hnl
  exact ⟨h, fun st hst => by simp [is_rfdk_setting, hst, h]⟩

theorem subnet_to_setting_name_roundtrip_witness :
    ("subnet-c" : String).data ≠ [] ∧ '|' ∉ ("subnet-c" : String).data ∧
    ("subnet-s" : String).data ≠ [] ∧ '|' ∉ ("subnet-s" : String).data ∧
    (("subnet-s" : String).data.getLast? = some '\n' →
      ("subnet-s" : String).data.dropLast = []) ∧
    parseSettingName (subnet_to_setting_name "subnet-c" "subnet-s") =
      some ("subnet-c", "subnet-s") ∧
    is_rfdk_setting
      ⟨"", "", "", "", "", subnet_to_setting_name "subnet-c" "subnet-s", true, "", ""⟩ = true :=
  ⟨by decide, by decide, by decide, by decide, by decide,
    (subnet_to_setting_name_roundtrip "subnet-c" "subnet-s" (by decide) (by decide) (by decide)
      (by decide) (by decide)).1,
    (subnet_to_setting_name_roundtrip "subnet-c" "subnet-s" (by decide) (by decide) (by decide)
      (by decide) (by decide)).2 _ rfl⟩

/-! ## Specification-side description of the create/update pass (refinement) -/

/-- Written from the specification's words, for comparison with the code's
`prepare_desired_setting`: the desired registration setting for one pair is
built from the pair's CIDR-derived IP filter values, role and registration
status, with `is_enabled = true` and a blank `settings_id`; it is undefined
when a CIDR is missing or fails to convert. -/
def desiredSettingSpec (connection_subnet_id : String) (source_subnet : SourceSubnet)
    (subnet_to_cidr : List (String × CidrInput)) :
    Option LoadBalancerIdentityRegistrationSetting :=
  match subnet_to_cidr.lookup connection_subnet_id,
      subnet_to_cidr.lookup source_subnet.subnet_id with
  | some connection_cidr, some source_cidr =>
      match (cidr_to_ipv4_match connection_cidr).toOption,
          (cidr_to_ipv4_match source_cidr).toOption with
      | some connection_value, some source_value =>
          some {
            connection_ip_filter_type := "IPv4Match"
            connection_ip_filter_value := connection_value
            source_ip_filter_type := "IPv4Match"
            source_ip_filter_value := source_value
            settings_id := ""
            settings_name := subnet_to_setting_name connection_subnet_id source_subnet.subnet_id
            is_enabled := true
            default_status := source_subnet.registration_status
            default_role := source_subnet.role
          }
      | _, _ => none
  | _, _ => none

/-- Written from the specification's words: the remote call owed to one
(connection, source) pair — a create with the desired setting when no prior
managed setting bears the derived name, an update carrying the prior
`settings_id` when one does and any field differs, and nothing when the
desired setting (with the prior id copied in) is identical to the prior. -/
def pairActionSpec (prior_rfdk_settings : List LoadBalancerIdentityRegistrationSetting)
    (subnet_to_cidr : List (String × CidrInput)) (pair : String × SourceSubnet) :
    Option ApiCall :=
  match desiredSettingSpec pair.1 pair.2 subnet_to_cidr with
  | none => none
  | some desired =>
      match prior_settings_by_name prior_rfdk_settings
          (subnet_to_setting_name pair.1 pair.2.subnet_id) with
      | none => some (.create desired)
      | some prior_setting =>
          let desired' := { desired with settings_id := prior_setting.settings_id }
          if desired' ≠ prior_setting then some (.update desired') else none

theorem prepare_desired_setting_eq_spec (connection_subnet_id : String)
    (source_subnet : SourceSubnet) (subnet_to_cidr : List (String × CidrInput))
    (st : LoadBalancerIdentityRegistrationSetting) :
    desiredSettingSpec connection_subnet_id source_subnet subnet_to_cidr = some st ↔
      prepare_desired_setting connection_subnet_id source_subnet subnet_to_cidr = .ok st := by
  simp only [desiredSettingSpec, prepare_desired_setting, dictGet, bind, Except.bind]
  cases h1 : subnet_to_cidr.lookup connection_subnet_id with
  | none => simp
  | some connection_cidr =>
    cases h2 : subnet_to_cidr.lookup source_subnet.subnet_id with
    | none => simp
    | some source_cidr =>
      cases h3 : cidr_to_ipv4_match connection_cidr with
      | error e => simp [Except.toOption, h3]
      | ok connection_value =>
        cases h4 : cidr_to_ipv4_match source_cidr with
        | error e => simp [Except.toOption, h3, h4]
        | ok source_value =>
          simp [Except.toOption, h3, h4, pure, Except.pure, eq_comm]

theorem processPair_eq_spec (prior_rfdk_settings : List LoadBalancerIdentityRegistrationSetting)
    (subnet_to_cidr : List (String × CidrInput)) (pair : String × SourceSubnet)
    (h : (desiredSettingSpec pair.1 pair.2 subnet_to_cidr).isSome) :
    processPair prior_rfdk_settings subnet_to_cidr pair =
      .ok (pairActionSpec prior_rfdk_settings subnet_to_cidr pair) := by
  obtain ⟨desired, hd⟩ := Option.isSome_iff_exists.mp h
  have hprep := (prepare_desired_setting_eq_spec pair.1 pair.2 subnet_to_cidr desired).mp hd
  simp only [processPair, pairActionSpec, hprep, hd, bind, Except.bind]
  cases hpr : prior_settings_by_name prior_rfdk_settings
      (subnet_to_setting_name pair.1 pair.2.subnet_id) with
  | none => rfl
  | some prior_setting =>
      by_cases heq : { desired with settings_id := prior_setting.settings_id } = prior_setting
      · simp [setting_differs, heq, pure, Except.pure]
      · simp [setting_differs, heq, Ne.symm heq, pure, Except.pure]

theorem create_and_update_loop_eq_spec
    (prior_rfdk_settings : List LoadBalancerIdentityRegistrationSetting)
    (subnet_to_cidr : List (String × CidrInput)) (pairs : List (String × SourceSubnet))
    (h : ∀ p ∈ pairs, (desiredSettingSpec p.1 p.2 subnet_to_cidr).isSome) :
    create_and_update_loop prior_rfdk_settings subnet_to_cidr pairs =
      .ok (pairs.filterMap (pairActionSpec prior_rfdk_settings subnet_to_cidr)) := by
  induction pairs with
  | nil => rfl
  | cons pair rest ih =>
      have hp := processPair_eq_spec prior_rfdk_settings subnet_to_cidr pair
        (h pair (List.mem_cons_self pair rest))
      have hrest := ih fun q hq => h q (List.mem_cons_of_mem pair hq)
      simp only [create_and_update_loop, hp, hrest, List.filterMap_cons, bind, Except.bind]
      cases pairActionSpec prior_rfdk_settings subnet_to_cidr pair <;> rfl

/-- C2: in the create/update pass, every pair of the Cartesian product
`connection_subnet_ids × source_subnets` contributes exactly the call dictated
by the specification: a create with the CIDR-derived desired setting
(`is_enabled = true`, blank `settings_id`) when no prior managed setting bears
the derived name, an update carrying the prior `settings_id` iff any field of
the desired setting (with that id copied in) differs from the prior setting,
and no remote call otherwise. -/
theorem create_and_update_settings_refines
    (prior_rfdk_settings : List LoadBalancerIdentityRegistrationSetting)
    (connection_subnet_ids : List String) (source_subnets : List SourceSubnet)
    (subnet_to_cidr : List (String × CidrInput))
    (h : ∀ p ∈ subnetPairs connection_subnet_ids source_subnets,
      (desiredSettingSpec p.1 p.2 subnet_to_cidr).isSome) :
    create_and_update_settings prior_rfdk_settings connection_subnet_ids source_subnets
        subnet_to_cidr =
      .ok ((subnetPairs connection_subnet_ids source_subnets).filterMap
        (pairActionSpec prior_rfdk_settings subnet_to_cidr)) :=
  create_and_update_loop_eq_spec prior_rfdk_settings subnet_to_cidr
    (subnetPairs connection_subnet_ids source_subnets) h

theorem create_and_update_settings_refines_witness :
    (∀ p ∈ subnetPairs ["subnet-c1"] [⟨"subnet-s1", "Client", "Registered"⟩],
      (desiredSettingSpec p.1 p.2
        [("subnet-c1", .v4 10 0 0 0 16), ("subnet-s1", .v4 10 1 0 0 16)]).isSome) ∧
    create_and_update_settings [] ["subnet-c1"] [⟨"subnet-s1", "Client", "Registered"⟩]
        [("subnet-c1", .v4 10 0 0 0 16), ("subnet-s1", .v4 10 1 0 0 16)] =
      .ok ((subnetPairs ["subnet-c1"] [⟨"subnet-s1", "Client", "Registered"⟩]).filterMap
        (pairActionSpec [] [("subnet-c1", .v4 10 0 0 0 16), ("subnet-s1", .v4 10 1 0 0 16)])) :=
  ⟨by decide,
    create_and_update_settings_refines [] ["subnet-c1"] [⟨"subnet-s1", "Client", "Registered"⟩]
      [("subnet-c1", .v4 10 0 0 0 16), ("subnet-s1", .v4 10 1 0 0 16)] (by decide)⟩

/-! ## Change-detection semantics -/

/-- Written from the specification's words: the two settings differ in at
least one field other than `settings_id`. -/
def differsIgnoringIdSpec (a b : LoadBalancerIdentityRegistrationSetting) : Prop :=
  a.connection_ip_filter_type ≠ b.connection_ip_filter_type ∨
  a.connection_ip_filter_value ≠ b.connection_ip_filter_value ∨
  a.source_ip_filter_type ≠ b.source_ip_filter_type ∨
  a.source_ip_filter_value ≠ b.source_ip_filter_value ∨
  a.settings_name ≠ b.settings_name ∨
  a.is_enabled ≠ b.is_enabled ∨
  a.default_status ≠ b.default_status ∨
  a.default_role ≠ b.default_role

/-- C8: once the desired setting carries the prior `settings_id` (as the
create/update pass arranges before comparing), `setting_differs` — full tuple
inequality including the id — holds exactly when some field other than
`settings_id` differs; full equality after copying the id is equivalent to
the id-excluding comparison. -/
theorem setting_differs_iff_ignoring_id
    (prior desired : LoadBalancerIdentityRegistrationSetting)
    (h : desired.settings_id = prior.settings_id) :
    (setting_differs prior desired = true ↔ differsIgnoringIdSpec prior desired) := by
  cases prior
  cases desired
  simp only [setting_differs, differsIgnoringIdSpec, decide_eq_true_eq, ne_eq,
    LoadBalancerIdentityRegistrationSetting.mk.injEq] at h ⊢
  subst h
  tauto

theorem setting_differs_iff_ignoring_id_witness :
    (LoadBalancerIdentityRegistrationSetting.settings_id
        ⟨"IPv4Match", "10.1.*.*", "IPv4Match", "10.2.*.*", "id-1",
          "RfdkSubnet|c|s", true, "Registered", "Server"⟩ =
      LoadBalancerIdentityRegistrationSetting.settings_id
        ⟨"IPv4Match", "10.1.*.*", "IPv4Match", "10.2.*.*", "id-1",
          "RfdkSubnet|c|s", true, "Registered", "Client"⟩) ∧
    (setting_differs
        ⟨"IPv4Match", "10.1.*.*", "IPv4Match", "10.2.*.*", "id-1",
          "RfdkSubnet|c|s", true, "Registered", "Client"⟩
        ⟨"IPv4Match", "10.1.*.*", "IPv4Match", "10.2.*.*", "id-1",
          "RfdkSubnet|c|s", true, "Registered", "Server"⟩ = true ↔
      differsIgnoringIdSpec
        ⟨"IPv4Match", "10.1.*.*", "IPv4Match", "10.2.*.*", "id-1",
          "RfdkSubnet|c|s", true, "Registered", "Client"⟩
        ⟨"IPv4Match", "10.1.*.*", "IPv4Match", "10.2.*.*", "id-1",
          "RfdkSubnet|c|s", true, "Registered", "Server"⟩) :=
  ⟨rfl,
    setting_differs_iff_ignoring_id
      ⟨"IPv4Match", "10.1.*.*", "IPv4Match", "10.2.*.*", "id-1",
        "RfdkSubnet|c|s", true, "Registered", "Client"⟩
      ⟨"IPv4Match", "10.1.*.*", "IPv4Match", "10.2.*.*", "id-1",
        "RfdkSubnet|c|s", true, "Registered", "Server"⟩ rfl⟩

/-! ## The deletion pass, settled -/

theorem delete_removed_settings_ok
    (prior_rfdk_settings : List LoadBalancerIdentityRegistrationSetting)
    (connection_subnet_ids : List String) (source_subnets : List SourceSubnet)
    (h : ∀ st ∈ prior_rfdk_settings, (parseSettingName st.settings_name).isSome) :
    delete_removed_settings prior_rfdk_settings connection_subnet_ids source_subnets =
      .ok (prior_rfdk_settings.filterMap fun st =>
        match parseSettingName st.settings_name with
        | some cs =>
            if cs.2 ∈ source_subnets.map SourceSubnet.subnet_id ∧ cs.1 ∈ connection_subnet_ids
            then none
            else some (.delete st.settings_id)
        | none => none) := by
  induction prior_rfdk_settings with
  | nil => rfl
  | cons st rest ih =>
      obtain ⟨cs, hcs⟩ := Option.isSome_iff_exists.mp (h st (List.mem_cons_self st rest))
      obtain ⟨cid, sid⟩ := cs
      have hrest := ih fun st' h' => h st' (List.mem_cons_of_mem st h')
      simp only [delete_removed_settings, hcs, hrest, List.filterMap_cons, bind, Except.bind]
      by_cases hmem : sid ∈ source_subnets.map SourceSubnet.subnet_id ∧
          cid ∈ connection_subnet_ids
      · have hnot : ¬(sid ∉ source_subnets.map SourceSubnet.subnet_id ∨
            cid ∉ connection_subnet_ids) := by tauto
        rw [if_neg hnot, if_pos hmem]
        rfl
      · have hor : sid ∉ source_subnets.map SourceSubnet.subnet_id ∨
            cid ∉ connection_subnet_ids := by tauto
        rw [if_pos hor, if_neg hmem]
        rfl

theorem delete_removed_settings_error
    (prior_rfdk_settings : List LoadBalancerIdentityRegistrationSetting)
    (connection_subnet_ids : List String) (source_subnets : List SourceSubnet)
    (h : ∃ st ∈ prior_rfdk_settings, parseSettingName st.settings_name = none) :
    ∃ msg, delete_removed_settings prior_rfdk_settings connection_subnet_ids source_subnets =
      .error (.valueError msg) := by
  induction prior_rfdk_settings with
  | nil => simp at h
  | cons st rest ih =>
      rcases h with ⟨st', hmem, hnone⟩
      rcases List.mem_cons.mp hmem with rfl | hmem'
      · exact ⟨"Recevied non-RFDK load balancer identity registration setting " ++
          st'.settings_name, by simp [delete_removed_settings, hnone]⟩
      · cases hp : parseSettingName st.settings_name with
        | none => exact ⟨"Recevied non-RFDK load balancer identity registration setting " ++
            st.settings_name, by simp [delete_removed_settings, hp]⟩
        | some cs =>
            obtain ⟨cid, sid⟩ := cs
            obtain ⟨msg, hmsg⟩ := ih ⟨st', hmem', hnone⟩
            exact ⟨msg, by simp [delete_removed_settings, hp, hmsg, bind, Except.bind]⟩

/-- C3: in the deletion pass, each prior managed setting whose name decomposes
as `RfdkSubnet|connection|source` triggers exactly one delete call keyed by
its opaque `settings_id` iff the source subnet ID is not among the desired
source subnets or the connection subnet ID is not among the desired
connection subnet IDs; and any prior setting whose name does not parse makes
the pass raise an error rather than being silently skipped. -/
theorem delete_removed_settings_spec
    (prior_rfdk_settings : List LoadBalancerIdentityRegistrationSetting)
    (connection_subnet_ids : List String) (source_subnets : List SourceSubnet) :
    ((∀ st ∈ prior_rfdk_settings, (parseSettingName st.settings_name).isSome) →
      delete_removed_settings prior_rfdk_settings connection_subnet_ids source_subnets =
        .ok (prior_rfdk_settings.filterMap fun st =>
          match parseSettingName st.settings_name with
          | some cs =>
              if cs.2 ∈ source_subnets.map SourceSubnet.subnet_id ∧
                  cs.1 ∈ connection_subnet_ids
              then none
              else some (.delete st.settings_id)
          | none => none)) ∧
    ((∃ st ∈ prior_rfdk_settings, parseSettingName st.settings_name = none) →
      ∃ msg, delete_removed_settings prior_rfdk_settings connection_subnet_ids source_subnets =
        .error (.valueError msg)) :=
  ⟨delete_removed_settings_ok prior_rfdk_settings connection_subnet_ids source_subnets,
    delete_removed_settings_error prior_rfdk_settings connection_subnet_ids source_subnets⟩

theorem delete_removed_settings_spec_witness :
    (∀ st ∈ [(⟨"IPv4Match", "10.1.*.*", "IPv4Match", "10.2.*.*", "id-1",
        "RfdkSubnet|subnet-c1|subnet-s1", true, "Registered", "Client"⟩ :
        LoadBalancerIdentityRegistrationSetting)],
      (parseSettingName st.settings_name).isSome) ∧
    delete_removed_settings
        [⟨"IPv4Match", "10.1.*.*", "IPv4Match", "10.2.*.*", "id-1",
          "RfdkSubnet|subnet-c1|subnet-s1", true, "Registered", "Client"⟩] [] [] =
      .ok [ApiCall.delete "id-1"] := by
  refine ⟨by decide, ?_⟩
  rw [(delete_removed_settings_spec
    [⟨"IPv4Match", "10.1.*.*", "IPv4Match", "10.2.*.*", "id-1",
      "RfdkSubnet|subnet-c1|subnet-s1", true, "Registered", "Client"⟩] [] []).1 (by decide)]
  rfl

/-! ## Validation before any remote call -/

theorem validate_source_subnets_error (source_subnets : List SourceSubnet)
    (observed : List String)
    (h : ¬ (source_subnets.map SourceSubnet.subnet_id).Nodup ∨
      ∃ x ∈ source_subnets.map SourceSubnet.subnet_id, x ∈ observed) :
    ∃ msg, validate_source_subnets source_subnets observed = .error (.valueError msg) := by
  induction source_subnets generalizing observed with
  | nil => simp at h
  | cons s rest ih =>
      by_cases hmem : s.subnet_id ∈ observed
      · exact ⟨"Subnet \"" ++ s.subnet_id ++ "\" is not unique",
          by simp [validate_source_subnets, hmem]⟩
      · have h' : ¬ (rest.map SourceSubnet.subnet_id).Nodup ∨
            ∃ x ∈ rest.map SourceSubnet.subnet_id, x ∈ s.subnet_id :: observed := by
          rcases h with hnd | ⟨x, hx, hxobs⟩
          · rw [List.map_cons, List.nodup_cons] at hnd
            by_cases hin : s.subnet_id ∈ rest.map SourceSubnet.subnet_id
            · exact Or.inr ⟨s.subnet_id, hin, List.mem_cons_self _ _⟩
            · exact Or.inl fun hnd' => hnd ⟨hin, hnd'⟩
          · rw [List.map_cons] at hx
            rcases List.mem_cons.mp hx with rfl | hx'
            · exact absurd hxobs hmem
            · exact Or.inr ⟨x, hx', List.mem_cons_of_mem _ hxobs⟩
        obtain ⟨msg, hmsg⟩ := ih (s.subnet_id :: observed) h'
        exact ⟨msg, by simp [validate_source_subnets, hmem, hmsg]⟩

/-- C7: a configuration with two source subnets sharing a subnet ID fails
validation with an error, and the whole entry point then returns that error —
for every possible remote-store contents and CIDR mapping — before any remote
call is made. -/
theorem duplicate_source_subnet_validation (source_subnet : List SourceSubnet)
    (connection_subnet : List String)
    (h : ¬ (source_subnet.map SourceSubnet.subnet_id).Nodup) :
    (∃ msg, validate_config source_subnet connection_subnet = .error (.valueError msg)) ∧
    (∀ (all_settings : List LoadBalancerIdentityRegistrationSetting)
        (subnet_to_cidr : List (String × CidrInput)), ∃ msg,
      main_model source_subnet connection_subnet all_settings subnet_to_cidr =
        .error (.valueError msg)) := by
  obtain ⟨msg, hmsg⟩ := validate_source_subnets_error source_subnet [] (Or.inl h)
  have hv : validate_config source_subnet connection_subnet = .error (.valueError msg) := by
    simp [validate_config, hmsg, bind, Except.bind]
  exact ⟨⟨msg, hv⟩, fun all_settings subnet_to_cidr =>
    ⟨msg, by simp [main_model, hv, bind, Except.bind]⟩⟩

theorem duplicate_source_subnet_validation_witness :
    ¬ (([⟨"subnet-s1", "Client", "Registered"⟩, ⟨"subnet-s1", "Server", "Pending"⟩] :
        List SourceSubnet).map SourceSubnet.subnet_id).Nodup ∧
    (∃ msg, validate_config
        [⟨"subnet-s1", "Client", "Registered"⟩, ⟨"subnet-s1", "Server", "Pending"⟩]
        ["subnet-c1"] = .error (.valueError msg)) ∧
    (∃ msg, main_model
        [⟨"subnet-s1", "Client", "Registered"⟩, ⟨"subnet-s1", "Server", "Pending"⟩]
        ["subnet-c1"] [] [] = .error (.valueError msg)) :=
  ⟨by decide,
    (duplicate_source_subnet_validation
      [⟨"subnet-s1", "Client", "Registered"⟩, ⟨"subnet-s1", "Server", "Pending"⟩]
      ["subnet-c1"] (by decide)).1,
    (duplicate_source_subnet_validation
      [⟨"subnet-s1", "Client", "Registered"⟩, ⟨"subnet-s1", "Server", "Pending"⟩]
      ["subnet-c1"] (by decide)).2 [] []⟩

/-! ## Isolation of unmanaged settings -/

/-- The `settings_id` a call is keyed on, when it mutates an existing remote
setting: deletes and updates are keyed by id, creates target nothing. -/
def targetId : ApiCall → Option String
  | .delete settingsId => some settingsId
  | .update setting => some setting.settings_id
  | .create _ => none

theorem prior_settings_by_name_mem
    (prior_rfdk_settings : List LoadBalancerIdentityRegistrationSetting) (name : String)
    (pr : LoadBalancerIdentityRegistrationSetting)
    (h : prior_settings_by_name prior_rfdk_settings name = some pr) :
    pr ∈ prior_rfdk_settings ∧ pr.settings_name = name := by
  unfold prior_settings_by_name at h
  have hmem : pr ∈ prior_rfdk_settings.filter (fun st => st.settings_name == name) := by
    obtain ⟨hne, heq⟩ := List.mem_getLast?_eq_getLast (Option.mem_def.mpr h)
    exact heq ▸ List.getLast_mem hne
  have h2 := List.mem_filter.mp hmem
  exact ⟨h2.1, by simpa using h2.2⟩

theorem delete_calls_target_prior
    (prior_rfdk_settings : List LoadBalancerIdentityRegistrationSetting)
    (connection_subnet_ids : List String) (source_subnets : List SourceSubnet)
    (calls : List ApiCall)
    (hrun : delete_removed_settings prior_rfdk_settings connection_subnet_ids source_subnets =
      .ok calls) :
    ∀ call ∈ calls, ∀ i, targetId call = some i →
      ∃ st ∈ prior_rfdk_settings, st.settings_id = i := by
  induction prior_rfdk_settings generalizing calls with
  | nil =>
      simp only [delete_removed_settings, Except.ok.injEq] at hrun
      subst hrun
      simp
  | cons st rest ih =>
      simp only [delete_removed_settings] at hrun
      cases hp : parseSettingName st.settings_name with
      | none => rw [hp] at hrun; cases hrun
      | some cs =>
          obtain ⟨cid, sid⟩ := cs
          rw [hp] at hrun
          cases hres : delete_removed_settings rest connection_subnet_ids source_subnets with
          | error e => simp [hres, bind, Except.bind] at hrun
          | ok tail =>
              simp only [hres, bind, Except.bind] at hrun
              intro call hcall i hi
              by_cases hcond : sid ∉ source_subnets.map SourceSubnet.subnet_id ∨
                  cid ∉ connection_subnet_ids
              · rw [if_pos hcond] at hrun
                have hcalls : calls = ApiCall.delete st.settings_id :: tail := by
                  simpa [pure, Except.pure] using hrun.symm
                subst hcalls
                rcases List.mem_cons.mp hcall with rfl | htail
                · refine ⟨st, List.mem_cons_self st rest, ?_⟩
                  simpa [targetId] using hi
                · obtain ⟨st', hst', hid⟩ := ih tail hres call htail i hi
                  exact ⟨st', List.mem_cons_of_mem st hst', hid⟩
              · rw [if_neg hcond] at hrun
                have hcalls : calls = tail := by simpa [pure, Except.pure] using hrun.symm
                subst hcalls
                obtain ⟨st', hst', hid⟩ := ih calls hres call hcall i hi
                exact ⟨st', List.mem_cons_of_mem st hst', hid⟩

theorem cu_calls_target_prior
    (prior_rfdk_settings : List LoadBalancerIdentityRegistrationSetting)
    (subnet_to_cidr : List (String × CidrInput)) (pairs : List (String × SourceSubnet))
    (calls : List ApiCall)
    (hrun : create_and_update_loop prior_rfdk_settings subnet_to_cidr pairs = .ok calls) :
    ∀ call ∈ calls, ∀ i, targetId call = some i →
      ∃ st ∈ prior_rfdk_settings, st.settings_id = i := by
  induction pairs generalizing calls with
  | nil =>
      simp only [create_and_update_loop, Except.ok.injEq] at hrun
      subst hrun
      simp
  | cons pair rest ih =>
      simp only [create_and_update_loop] at hrun
      cases hact : processPair prior_rfdk_settings subnet_to_cidr pair with
      | error e => simp [hact, bind, Except.bind] at hrun
      | ok act =>
          cases hres : create_and_update_loop prior_rfdk_settings subnet_to_cidr rest with
          | error e => simp [hact, hres, bind, Except.bind] at hrun
          | ok tail =>
              simp only [hact, hres, bind, Except.bind] at hrun
              intro call hcall i hi
              cases act with
              | none =>
                  have hcalls : calls = tail := by simpa [pure, Except.pure] using hrun.symm
                  subst hcalls
                  exact ih calls hres call hcall i hi
              | some call0 =>
                  have hcalls : calls = call0 :: tail := by
                    simpa [pure, Except.pure] using hrun.symm
                  subst hcalls
                  rcases List.mem_cons.mp hcall with rfl | htail
                  · -- the head call comes from processPair; analyse it
                    simp only [processPair, bind, Except.bind] at hact
                    cases hprep : prepare_desired_setting pair.1 pair.2 subnet_to_cidr with
                    | error e => simp only [hprep] at hact; cases hact
                    | ok desired =>
                        simp only [hprep] at hact
                        cases hpr : prior_settings_by_name prior_rfdk_settings
                            (subnet_to_setting_name pair.1 pair.2.subnet_id) with
                        | none =>
                            simp only [hpr] at hact
                            have : ApiCall.create desired = call := by
                              simpa [pure, Except.pure] using hact
                            rw [← this] at hi
                            simp [targetId] at hi
                        | some prior_setting =>
                            simp only [hpr] at hact
                            by_cases hdif : setting_differs prior_setting
                                { desired with settings_id := prior_setting.settings_id } = true
                            · rw [if_pos hdif] at hact
                              have hcall0 : ApiCall.update
                                  { desired with settings_id := prior_setting.settings_id } =
                                  call := by
                                simpa [pure, Except.pure] using hact
                              rw [← hcall0] at hi
                              simp only [targetId, Option.some.injEq] at hi
                              refine ⟨prior_setting,
                                (prior_settings_by_name_mem _ _ _ hpr).1, ?_⟩
                              simpa using hi
                            · rw [if_neg hdif] at hact
                              simp [pure, Except.pure] at hact
                  · exact ih tail hres call htail i hi

/-- C5: a remote setting whose name does not match the `RfdkSubnet|...|...`
pattern is excluded from the managed subset by the classifier, and every
update or delete call issued in a run is keyed by the `settings_id` of an
RFDK-managed prior setting — unmanaged settings are never mutated, whatever
the desired state. -/
theorem unmanaged_settings_never_touched
    (all_settings : List LoadBalancerIdentityRegistrationSetting)
    (connection_subnets : List String) (source_subnets : List SourceSubnet)
    (subnet_to_cidr : List (String × CidrInput)) (calls : List ApiCall)
    (hrun : apply_registration_settings all_settings connection_subnets source_subnets
      subnet_to_cidr = .ok calls) :
    (∀ u ∈ all_settings, is_rfdk_setting u = false →
      u ∉ get_rfdk_registration_settings all_settings) ∧
    (∀ call ∈ calls, ∀ i, targetId call = some i →
      ∃ st ∈ all_settings, is_rfdk_setting st = true ∧ st.settings_id = i) := by
  constructor
  · intro u hu hfalse hmem
    have h2 := (List.mem_filter.mp hmem).2
    rw [hfalse] at h2
    exact Bool.false_ne_true h2
  · simp only [apply_registration_settings, bind, Except.bind] at hrun
    cases hdel : delete_removed_settings (get_rfdk_registration_settings all_settings)
        connection_subnets source_subnets with
    | error e => rw [hdel] at hrun; cases hrun
    | ok dcalls =>
        rw [hdel] at hrun
        cases hcu : create_and_update_settings (get_rfdk_registration_settings all_settings)
            connection_subnets source_subnets subnet_to_cidr with
        | error e => rw [hcu] at hrun; cases hrun
        | ok cucalls =>
            rw [hcu] at hrun
            have hcalls : calls = dcalls ++ cucalls := by
              simpa [pure, Except.pure] using hrun.symm
            subst hcalls
            intro call hcall i hi
            have hfromPrior : ∃ st ∈ get_rfdk_registration_settings all_settings,
                st.settings_id = i := by
              rcases List.mem_append.mp hcall with hd | hc
              · exact delete_calls_target_prior _ _ _ _ hdel call hd i hi
              · exact cu_calls_target_prior _ _ _ _ hcu call hc i hi
            obtain ⟨st, hst, hid⟩ := hfromPrior
            have h2 := List.mem_filter.mp hst
            exact ⟨st, h2.1, h2.2, hid⟩

theorem unmanaged_settings_never_touched_witness :
    apply_registration_settings
        [⟨"IPv4Match", "10.1.*.*", "IPv4Match", "10.2.*.*", "id-1",
          "RfdkSubnet|subnet-c1|subnet-s1", true, "Registered", "Client"⟩,
         ⟨"IPv4Match", "10.3.*.*", "IPv4Match", "10.4.*.*", "id-2",
          "Manually configured", true, "Registered", "Client"⟩] [] [] [] =
      .ok [ApiCall.delete "id-1"] ∧
    ((∀ u ∈ [(⟨"IPv4Match", "10.1.*.*", "IPv4Match", "10.2.*.*", "id-1",
          "RfdkSubnet|subnet-c1|subnet-s1", true, "Registered", "Client"⟩ :
          LoadBalancerIdentityRegistrationSetting),
         ⟨"IPv4Match", "10.3.*.*", "IPv4Match", "10.4.*.*", "id-2",
          "Manually configured", true, "Registered", "Client"⟩],
        is_rfdk_setting u = false →
        u ∉ get_rfdk_registration_settings
          [⟨"IPv4Match", "10.1.*.*", "IPv4Match", "10.2.*.*", "id-1",
            "RfdkSubnet|subnet-c1|subnet-s1", true, "Registered", "Client"⟩,
           ⟨"IPv4Match", "10.3.*.*", "IPv4Match", "10.4.*.*", "id-2",
            "Manually configured", true, "Registered", "Client"⟩]) ∧
      (∀ call ∈ [ApiCall.delete "id-1"], ∀ i, targetId call = some i →
        ∃ st ∈ [(⟨"IPv4Match", "10.1.*.*", "IPv4Match", "10.2.*.*", "id-1",
            "RfdkSubnet|subnet-c1|subnet-s1", true, "Registered", "Client"⟩ :
            LoadBalancerIdentityRegistrationSetting),
           ⟨"IPv4Match", "10.3.*.*", "IPv4Match", "10.4.*.*", "id-2",
            "Manually configured", true, "Registered", "Client"⟩],
          is_rfdk_setting st = true ∧ st.settings_id = i)) :=
  ⟨by rfl,
    unmanaged_settings_never_touched
      [⟨"IPv4Match", "10.1.*.*", "IPv4Match", "10.2.*.*", "id-1",
        "RfdkSubnet|subnet-c1|subnet-s1", true, "Registered", "Client"⟩,
       ⟨"IPv4Match", "10.3.*.*", "IPv4Match", "10.4.*.*", "id-2",
        "Manually configured", true, "Registered", "Client"⟩] [] [] [] [ApiCall.delete "id-1"]
      (by rfl)⟩

/-! ## Idempotence of the reconciliation -/

theorem mem_subnetPairs (connection_subnet_ids : List String) (source_subnets : List SourceSubnet)
    (p : String × SourceSubnet) :
    p ∈ subnetPairs connection_subnet_ids source_subnets ↔
      p.1 ∈ connection_subnet_ids ∧ p.2 ∈ source_subnets := by
  obtain ⟨c, s⟩ := p
  simp only [subnetPairs, List.mem_flatMap, List.mem_map, Prod.mk.injEq]
  constructor
  · rintro ⟨c', hc', s', hs', rfl, rfl⟩
    exact ⟨hc', hs'⟩
  · rintro ⟨hc, hs⟩
    exact ⟨c, hc, s, hs, rfl, rfl⟩

theorem desiredSettingSpec_eq (connection_subnet_id : String) (source_subnet : SourceSubnet)
    (subnet_to_cidr : List (String × CidrInput)) (d : LoadBalancerIdentityRegistrationSetting)
    (hd : desiredSettingSpec connection_subnet_id source_subnet subnet_to_cidr = some d) :
    d.settings_id = "" ∧
      d.settings_name = subnet_to_setting_name connection_subnet_id source_subnet.subnet_id := by
  simp only [desiredSettingSpec] at hd
  split at hd
  · split at hd
    · cases hd
      exact ⟨rfl, rfl⟩
    · cases hd
  · cases hd

/-- The remote store holds, for the given pair, a setting that agrees with the
pair's desired setting on every field except possibly `settings_id`. -/
def matchesDesired (pair : String × SourceSubnet) (subnet_to_cidr : List (String × CidrInput))
    (st : LoadBalancerIdentityRegistrationSetting) : Prop :=
  desiredSettingSpec pair.1 pair.2 subnet_to_cidr = some { st with settings_id := "" }

instance matchesDesired.instDec (pair : String × SourceSubnet)
    (subnet_to_cidr : List (String × CidrInput))
    (st : LoadBalancerIdentityRegistrationSetting) : Decidable (matchesDesired pair subnet_to_cidr st) :=
  inferInstanceAs (Decidable (desiredSettingSpec pair.1 pair.2 subnet_to_cidr =
    some { st with settings_id := "" }))

theorem matchesDesired_agree (pair : String × SourceSubnet)
    (subnet_to_cidr : List (String × CidrInput))
    (st d : LoadBalancerIdentityRegistrationSetting)
    (hd : desiredSettingSpec pair.1 pair.2 subnet_to_cidr = some d)
    (hm : matchesDesired pair subnet_to_cidr st) :
    st = { d with settings_id := st.settings_id } := by
  unfold matchesDesired at hm
  have hdd : d = { st with settings_id := "" } := Option.some.inj (hd.symm.trans hm)
  subst hdd
  cases st
  rfl

theorem setting_name_inj (c c' s s' : String)
    (hc : c.data ≠ [] ∧ '|' ∉ c.data) (hc' : c'.data ≠ [] ∧ '|' ∉ c'.data)
    (hs : s.data ≠ [] ∧ '|' ∉ s.data) (hs' : s'.data ≠ [] ∧ '|' ∉ s'.data)
    (hnls : s.data.getLast? = some '\n' → s.data.dropLast = [])
    (hnls' : s'.data.getLast? = some '\n' → s'.data.dropLast = [])
    (heq : subnet_to_setting_name c s = subnet_to_setting_name c' s') : c = c' ∧ s = s' := by
  have h1 := parseSettingName_roundtrip c s hc.1 hc.2 hs.1 hs.2 hnls
  have h2 := parseSettingName_roundtrip c' s' hc'.1 hc'.2 hs'.1 hs'.2 hnls'
  rw [heq] at h1
  have h3 := Option.some.inj (h1.symm.trans h2)
  exact ⟨congrArg Prod.fst h3, congrArg Prod.snd h3⟩

theorem map_nodup_inj {α β : Type} (f : α → β) (l : List α) (h : (l.map f).Nodup) :
    ∀ a ∈ l, ∀ b ∈ l, f a = f b → a = b := by
  induction l with
  | nil => simp
  | cons x xs ih =>
      rw [List.map_cons, List.nodup_cons] at h
      intro a ha b hb hab
      rcases List.mem_cons.mp ha with rfl | ha' <;> rcases List.mem_cons.mp hb with rfl | hb'
      · rfl
      · exact absurd (by rw [hab]; exact List.mem_map_of_mem f hb') h.1
      · exact absurd (by rw [← hab]; exact List.mem_map_of_mem f ha') h.1
      · exact ih h.2 a ha' b hb' hab

/-- C4 (amended): idempotence — if after one completed run the remote store's
managed subset consists exactly of settings agreeing (up to the
server-assigned `settings_id`) with the desired setting of each pair that run
created, updated, or left unchanged, then a second run with the same
connection subnet IDs, source subnets, and subnet-to-CIDR mapping issues zero
create, update and delete calls — provided additionally that no source subnet
ID ends with a newline character (with more than that newline in it): for
such an ID the deletion pass's regex capture drops the trailing newline and
the second run issues a spurious delete. -/
theorem second_run_issues_no_calls
    (connection_subnets : List String) (source_subnets : List SourceSubnet)
    (subnet_to_cidr : List (String × CidrInput))
    (all_settings2 : List LoadBalancerIdentityRegistrationSetting)
    (hconn : ∀ c ∈ connection_subnets, c.data ≠ [] ∧ '|' ∉ c.data)
    (hsrc : ∀ s ∈ source_subnets, s.subnet_id.data ≠ [] ∧ '|' ∉ s.subnet_id.data ∧
      (s.subnet_id.data.getLast? = some '\n' → s.subnet_id.data.dropLast = []))
    (hnodup : (source_subnets.map SourceSubnet.subnet_id).Nodup)
    (hdesired : ∀ p ∈ subnetPairs connection_subnets source_subnets,
      (desiredSettingSpec p.1 p.2 subnet_to_cidr).isSome)
    (hpost1 : ∀ st ∈ get_rfdk_registration_settings all_settings2,
      ∃ p ∈ subnetPairs connection_subnets source_subnets, matchesDesired p subnet_to_cidr st)
    (hpost2 : ∀ p ∈ subnetPairs connection_subnets source_subnets,
      ∃ st ∈ get_rfdk_registration_settings all_settings2, matchesDesired p subnet_to_cidr st) :
    apply_registration_settings all_settings2 connection_subnets source_subnets
      subnet_to_cidr = .ok [] := by
  set prior := get_rfdk_registration_settings all_settings2 with hprior
  -- every prior managed setting bears the derived name of a desired pair
  have hname : ∀ st ∈ prior, ∃ p ∈ subnetPairs connection_subnets source_subnets,
      st.settings_name = subnet_to_setting_name p.1 p.2.subnet_id := by
    intro st hst
    obtain ⟨p, hp, hm⟩ := hpost1 st hst
    obtain ⟨d, hd⟩ := Option.isSome_iff_exists.mp (hdesired p hp)
    have hag := matchesDesired_agree p subnet_to_cidr st d hd hm
    refine ⟨p, hp, ?_⟩
    rw [hag]
    exact (desiredSettingSpec_eq p.1 p.2 subnet_to_cidr d hd).2
  -- the deletion pass deletes nothing
  have hparse_all : ∀ st ∈ prior, (parseSettingName st.settings_name).isSome := by
    intro st hst
    obtain ⟨p, hp, hn⟩ := hname st hst
    have hpmem := (mem_subnetPairs _ _ p).mp hp
    have hpc := hconn p.1 hpmem.1
    have hps := hsrc p.2 hpmem.2
    rw [hn, parseSettingName_roundtrip p.1 p.2.subnet_id hpc.1 hpc.2 hps.1 hps.2.1 hps.2.2]
    rfl
  have hdel := delete_removed_settings_ok prior connection_subnets source_subnets hparse_all
  have hdelnil : (prior.filterMap fun st =>
      match parseSettingName st.settings_name with
      | some cs =>
          if cs.2 ∈ source_subnets.map SourceSubnet.subnet_id ∧ cs.1 ∈ connection_subnets
          then none
          else some (ApiCall.delete st.settings_id)
      | none => none) = [] := by
    rw [List.filterMap_eq_nil_iff]
    intro st hst
    obtain ⟨p, hp, hn⟩ := hname st hst
    have hpmem := (mem_subnetPairs _ _ p).mp hp
    have hpc := hconn p.1 hpmem.1
    have hps := hsrc p.2 hpmem.2
    rw [hn, parseSettingName_roundtrip p.1 p.2.subnet_id hpc.1 hpc.2 hps.1 hps.2.1 hps.2.2]
    simp only
    rw [if_pos ⟨List.mem_map_of_mem SourceSubnet.subnet_id hpmem.2, hpmem.1⟩]
  rw [hdelnil] at hdel
  -- the create/update pass issues nothing
  have hcu := create_and_update_loop_eq_spec prior subnet_to_cidr
    (subnetPairs connection_subnets source_subnets) hdesired
  have hcunil : (subnetPairs connection_subnets source_subnets).filterMap
      (pairActionSpec prior subnet_to_cidr) = [] := by
    rw [List.filterMap_eq_nil_iff]
    intro p hp
    obtain ⟨d, hd⟩ := Option.isSome_iff_exists.mp (hdesired p hp)
    obtain ⟨st0, hst0, hm0⟩ := hpost2 p hp
    have hag0 := matchesDesired_agree p subnet_to_cidr st0 d hd hm0
    have hname0 : st0.settings_name = subnet_to_setting_name p.1 p.2.subnet_id := by
      rw [hag0]
      exact (desiredSettingSpec_eq p.1 p.2 subnet_to_cidr d hd).2
    -- the prior-settings dictionary returns some prior setting with that name
    have hfilter_ne : prior.filter
        (fun st => st.settings_name == subnet_to_setting_name p.1 p.2.subnet_id) ≠ [] := by
      intro hnil
      have hmem0 : st0 ∈ prior.filter
          (fun st => st.settings_name == subnet_to_setting_name p.1 p.2.subnet_id) :=
        List.mem_filter.mpr ⟨hst0, by simp [hname0]⟩
      rw [hnil] at hmem0
      simp at hmem0
    have hpr : prior_settings_by_name prior (subnet_to_setting_name p.1 p.2.subnet_id) =
        some ((prior.filter
          (fun st => st.settings_name == subnet_to_setting_name p.1 p.2.subnet_id)).getLast
          hfilter_ne) :=
      List.getLast?_eq_getLast_of_ne_nil hfilter_ne
    set pr := (prior.filter
      (fun st => st.settings_name == subnet_to_setting_name p.1 p.2.subnet_id)).getLast
      hfilter_ne with hprdef
    have hprmem := prior_settings_by_name_mem prior
      (subnet_to_setting_name p.1 p.2.subnet_id) pr hpr
    -- that prior setting agrees with the desired setting of the same pair
    obtain ⟨q, hq, hmq⟩ := hpost1 pr hprmem.1
    obtain ⟨dq, hdq⟩ := Option.isSome_iff_exists.mp (hdesired q hq)
    have hagq := matchesDesired_agree q subnet_to_cidr pr dq hdq hmq
    have hnameq : pr.settings_name = subnet_to_setting_name q.1 q.2.subnet_id := by
      rw [hagq]
      exact (desiredSettingSpec_eq q.1 q.2 subnet_to_cidr dq hdq).2
    have hqmem := (mem_subnetPairs _ _ q).mp hq
    have hpmem := (mem_subnetPairs _ _ p).mp hp
    have heqname : subnet_to_setting_name q.1 q.2.subnet_id =
        subnet_to_setting_name p.1 p.2.subnet_id := by
      rw [← hnameq, hprmem.2]
    obtain ⟨hc1, hs1⟩ := setting_name_inj q.1 p.1 q.2.subnet_id p.2.subnet_id
      (hconn q.1 hqmem.1) (hconn p.1 hpmem.1)
      ⟨(hsrc q.2 hqmem.2).1, (hsrc q.2 hqmem.2).2.1⟩
      ⟨(hsrc p.2 hpmem.2).1, (hsrc p.2 hpmem.2).2.1⟩
      (hsrc q.2 hqmem.2).2.2 (hsrc p.2 hpmem.2).2.2 heqname
    have hs2 : q.2 = p.2 :=
      map_nodup_inj SourceSubnet.subnet_id source_subnets hnodup q.2 hqmem.2 p.2 hpmem.2 hs1
    have hqp : q = p := by
      obtain ⟨qc, qs⟩ := q
      obtain ⟨pc, ps⟩ := p
      simp only at hc1 hs2
      rw [hc1, hs2]
    rw [hqp] at hdq
    have hdd : dq = d := Option.some.inj (hdq.symm.trans hd)
    rw [hdd] at hagq
    -- compute the pair's action: the desired setting equals the prior one
    simp only [pairActionSpec, hd, hpr, ← hprdef]
    rw [if_neg (fun hne => hne hagq.symm)]
  rw [hcunil] at hcu
  have hcu' : create_and_update_settings prior connection_subnets source_subnets
      subnet_to_cidr = .ok [] := hcu
  simp only [apply_registration_settings, bind, Except.bind, ← hprior]
  rw [hdel, hcu']
  rfl

/-- C4 counterexample: with the source subnet ID `"subnet-s\n"` — non-empty,
`'|'`-free, pairwise unique, constructible — and the remote store holding
exactly the setting the first run created for the single pair, the second run
issues a delete call: the deletion pass decomposes the stored name
`"RfdkSubnet|subnet-c1|subnet-s\n"` into `("subnet-c1", "subnet-s")` and
`"subnet-s"` is not among the desired source subnet IDs. -/
theorem second_run_issues_no_calls_counterexample :
    (∀ c ∈ ["subnet-c1"], c.data ≠ [] ∧ '|' ∉ c.data) ∧
    (∀ s ∈ [(⟨"subnet-s\n", "Client", "Registered"⟩ : SourceSubnet)],
      s.subnet_id.data ≠ [] ∧ '|' ∉ s.subnet_id.data) ∧
    (([(⟨"subnet-s\n", "Client", "Registered"⟩ : SourceSubnet)].map
      SourceSubnet.subnet_id).Nodup) ∧
    (∀ p ∈ subnetPairs ["subnet-c1"] [⟨"subnet-s\n", "Client", "Registered"⟩],
      (desiredSettingSpec p.1 p.2
        [("subnet-c1", .v4 10 0 0 0 16), ("subnet-s\n", .v4 10 1 0 0 16)]).isSome) ∧
    (∀ st ∈ get_rfdk_registration_settings
        [⟨"IPv4Match", "10.0.*.*", "IPv4Match", "10.1.*.*", "srv-1",
          "RfdkSubnet|subnet-c1|subnet-s\n", true, "Registered", "Client"⟩],
      ∃ p ∈ subnetPairs ["subnet-c1"] [⟨"subnet-s\n", "Client", "Registered"⟩],
        matchesDesired p
          [("subnet-c1", .v4 10 0 0 0 16), ("subnet-s\n", .v4 10 1 0 0 16)] st) ∧
    (∀ p ∈ subnetPairs ["subnet-c1"] [⟨"subnet-s\n", "Client", "Registered"⟩],
      ∃ st ∈ get_rfdk_registration_settings
        [⟨"IPv4Match", "10.0.*.*", "IPv4Match", "10.1.*.*", "srv-1",
          "RfdkSubnet|subnet-c1|subnet-s\n", true, "Registered", "Client"⟩],
        matchesDesired p
          [("subnet-c1", .v4 10 0 0 0 16), ("subnet-s\n", .v4 10 1 0 0 16)] st) ∧
    apply_registration_settings
        [⟨"IPv4Match", "10.0.*.*", "IPv4Match", "10.1.*.*", "srv-1",
          "RfdkSubnet|subnet-c1|subnet-s\n", true, "Registered", "Client"⟩]
        ["subnet-c1"] [⟨"subnet-s\n", "Client", "Registered"⟩]
        [("subnet-c1", .v4 10 0 0 0 16), ("subnet-s\n", .v4 10 1 0 0 16)] =
      .ok [ApiCall.delete "srv-1"] ∧
    [ApiCall.delete "srv-1"] ≠ ([] : List ApiCall) :=
  ⟨by decide, by decide, by decide, by decide, by decide, by decide, by rfl, by decide⟩

theorem second_run_issues_no_calls_witness :
    (∀ c ∈ ["subnet-c1"], c.data ≠ [] ∧ '|' ∉ c.data) ∧
    (∀ s ∈ [(⟨"subnet-s1", "Client", "Registered"⟩ : SourceSubnet)],
      s.subnet_id.data ≠ [] ∧ '|' ∉ s.subnet_id.data ∧
      (s.subnet_id.data.getLast? = some '\n' → s.subnet_id.data.dropLast = [])) ∧
    (([(⟨"subnet-s1", "Client", "Registered"⟩ : SourceSubnet)].map
      SourceSubnet.subnet_id).Nodup) ∧
    (∀ p ∈ subnetPairs ["subnet-c1"] [⟨"subnet-s1", "Client", "Registered"⟩],
      (desiredSettingSpec p.1 p.2
        [("subnet-c1", .v4 10 0 0 0 16), ("subnet-s1", .v4 10 1 0 0 16)]).isSome) ∧
    (∀ st ∈ get_rfdk_registration_settings
        [⟨"IPv4Match", "10.0.*.*", "IPv4Match", "10.1.*.*", "srv-1",
          "RfdkSubnet|subnet-c1|subnet-s1", true, "Registered", "Client"⟩],
      ∃ p ∈ subnetPairs ["subnet-c1"] [⟨"subnet-s1", "Client", "Registered"⟩],
        matchesDesired p [("subnet-c1", .v4 10 0 0 0 16), ("subnet-s1", .v4 10 1 0 0 16)] st) ∧
    (∀ p ∈ subnetPairs ["subnet-c1"] [⟨"subnet-s1", "Client", "Registered"⟩],
      ∃ st ∈ get_rfdk_registration_settings
        [⟨"IPv4Match", "10.0.*.*", "IPv4Match", "10.1.*.*", "srv-1",
          "RfdkSubnet|subnet-c1|subnet-s1", true, "Registered", "Client"⟩],
        matchesDesired p [("subnet-c1", .v4 10 0 0 0 16), ("subnet-s1", .v4 10 1 0 0 16)] st) ∧
    apply_registration_settings
        [⟨"IPv4Match", "10.0.*.*", "IPv4Match", "10.1.*.*", "srv-1",
          "RfdkSubnet|subnet-c1|subnet-s1", true, "Registered", "Client"⟩]
        ["subnet-c1"] [⟨"subnet-s1", "Client", "Registered"⟩]
        [("subnet-c1", .v4 10 0 0 0 16), ("subnet-s1", .v4 10 1 0 0 16)] = .ok [] :=
  ⟨by decide, by decide, by decide, by decide, by decide, by decide,
    second_run_issues_no_calls ["subnet-c1"] [⟨"subnet-s1", "Client", "Registered"⟩]
      [("subnet-c1", .v4 10 0 0 0 16), ("subnet-s1", .v4 10 1 0 0 16)]
      [⟨"IPv4Match", "10.0.*.*", "IPv4Match", "10.1.*.*", "srv-1",
        "RfdkSubnet|subnet-c1|subnet-s1", true, "Registered", "Client"⟩]
      (by decide) (by decide) (by decide) (by decide) (by decide) (by decide)⟩

end ConfigureIdentityRegistrationSettings
